import Mathlib

/-!
Verification development for the mq query/transformation engine FFI surface
(crates/mq-ffi: mq.h, test_mq.c). The repository snapshot contains only the C
header and its test driver; the engine behind them (document model builder,
script lexer/parser, interpreter, engine facade, HTML-to-Markdown converter,
and the memory-release entry points) is modelled here from the specification
(spec.md sections 3 to 7), as noted on each definition.
-/

set_option maxRecDepth 4096

/-- Modelled from the spec: node kinds of Markdown block nodes (spec 3,
"heading, paragraph, code-block, list-item, etc."). The concrete Rust document
model is not in the snapshot. -/
inductive Kind where
  | heading
  | paragraph
  | codeBlock
  | listItem
deriving DecidableEq, BEq

/-- Modelled from the spec: a Markdown block node with kind, level, raw text
and ordered children (spec 3, "Markdown document"). The concrete Rust node
type is not in the snapshot. -/
inductive Block where
  | mk : Kind → Nat → String → List Block → Block

def Block.kind : Block → Kind
  | .mk k _ _ _ => k

def Block.level : Block → Nat
  | .mk _ l _ _ => l

def Block.raw_text : Block → String
  | .mk _ _ t _ => t

def Block.children : Block → List Block
  | .mk _ _ _ c => c

/-- Modelled from the spec: the parsed form of one input, by format (spec 3,
"Document"): a text document is an ordered list of lines, a Markdown document
an ordered list of block nodes. -/
inductive Document where
  | text (lines : List String)
  | markdown (blocks : List Block)

/-- Modelled from the spec: the script AST (spec 3, "Script AST"): function
call, string literal, or node-kind selector. -/
inductive Expr where
  | call (name : String) (args : List Expr)
  | strLit (s : String)
  | selector (name : String)

/-- Modelled from the spec: the two recognized input formats (spec 4.1,
`enum{Text, Markdown}`). -/
inductive InputFormat where
  | text
  | markdown
deriving DecidableEq

/-- ASCII lower-casing of one character, used for case-insensitive format
matching. -/
def lowerChar (c : Char) : Char :=
  if 'A' ≤ c ∧ c ≤ 'Z' then Char.ofNat (c.toNat + 32) else c

/-- ASCII lower-casing of a string. -/
def strToLower (s : String) : String :=
  String.mk (s.data.map lowerChar)

/-- Modelled from the spec: format recognition is case-insensitive and
recognizes exactly "text" and "markdown" (spec 4.1 and 6); any other string is
unsupported. The concrete Rust format matching is not in the snapshot. -/
def parseFormat (s : String) : Option InputFormat :=
  if strToLower s = "text" then some InputFormat.text
  else if strToLower s = "markdown" then some InputFormat.markdown
  else none

/-- Splits a character list at newline characters, accumulating the current
line in reverse. -/
def splitLinesAux : List Char → List Char → List String
  | [], acc => [String.mk acc.reverse]
  | c :: cs, acc =>
    if c = '\n' then String.mk acc.reverse :: splitLinesAux cs []
    else splitLinesAux cs (c :: acc)

/-- Modelled from the spec: the text builder splits input on line boundaries;
empty input yields a zero-line document, never an error (spec 4.1). -/
def splitLines (s : String) : List String :=
  if s.data.isEmpty then [] else splitLinesAux s.data []

/-- Counts the leading '#' marker characters of a line. -/
def countHashes : List Char → Nat
  | '#' :: cs => countHashes cs + 1
  | _ => 0

/-- Modelled from the spec: heading detection in the Markdown builder —
headings are detected by a leading marker sequence (1 to 6 markers followed by
a space) and the level equals the marker count; malformed or partial markers
are treated as paragraph text (spec 4.1). -/
def classifyLine (line : String) : Block :=
  let k := countHashes line.data
  if 1 ≤ k ∧ k ≤ 6 ∧ (line.data.drop k).headD ' ' = ' ' ∧ ¬ (line.data.drop k).isEmpty
  then Block.mk Kind.heading k line []
  else Block.mk Kind.paragraph 0 line []

/-- Modelled from the spec: the Markdown builder parses block structure and
never fails on any input string (spec 4.1). Blocks are produced per non-blank
line in source order; the raw text of a block is its literal source line
(spec 3, "raw_text ... the literal source text of that block"). -/
def buildMarkdown (input : String) : List Block :=
  (splitLines input).filterMap fun line =>
    if line = "" then none else some (classifyLine line)

/-- Modelled from the spec: document model construction from input text and a
recognized format (spec 4.1, `build`); building never fails for any string
input (spec 7, `DocumentBuildFailure` is reserved/dead). -/
def buildDocument (input : String) : InputFormat → Document
  | InputFormat.text => Document.text (splitLines input)
  | InputFormat.markdown => Document.markdown (buildMarkdown input)

/-- Character class of script identifiers: letters, digits, underscore. -/
def isIdentChar (c : Char) : Bool :=
  c.isAlphanum || c = '_'

/-- Skips leading space characters. -/
def skipWs : List Char → List Char
  | [] => []
  | c :: cs => if c = ' ' then skipWs cs else c :: cs

/-- Takes the longest identifier-character run from the front, returning the
run and the remainder. -/
def takeIdent : List Char → List Char × List Char
  | [] => ([], [])
  | c :: cs =>
    if isIdentChar c then
      let p := takeIdent cs
      (c :: p.1, p.2)
    else ([], c :: cs)

/-- Takes characters up to a closing double quote; `none` when the quote is
missing. String literals have no escape processing (spec 4.2). -/
def takeUntilQuote : List Char → Option (List Char × List Char)
  | [] => none
  | c :: cs =>
    if c = '"' then some ([], cs)
    else
      match takeUntilQuote cs with
      | some p => some (c :: p.1, p.2)
      | none => none

mutual

/-- Modelled from the spec: recursive-descent parsing of one expression of the
script grammar (spec 4.2): `Expr := Call | StringLiteral | Selector`,
`Selector := "." Identifier`, `Call := Identifier "(" [Expr ("," Expr)*] ")"`.
Fuel bounds the recursion; the top-level entry supplies more fuel than any
input can consume. Unknown identifiers are not rejected here (spec 4.2). -/
def parseExpr : Nat → List Char → Except String (Expr × List Char)
  | 0, _ => Except.error "recursion limit exceeded"
  | fuel + 1, cs =>
    match skipWs cs with
    | '"' :: rest =>
      match takeUntilQuote rest with
      | some p => Except.ok (Expr.strLit (String.mk p.1), p.2)
      | none => Except.error "unterminated string literal"
    | '.' :: rest =>
      let p := takeIdent rest
      if p.1.isEmpty then Except.error "expected identifier after dot"
      else Except.ok (Expr.selector (String.mk p.1), p.2)
    | cs2 =>
      let p := takeIdent cs2
      if p.1.isEmpty then Except.error "expected expression"
      else
        match skipWs p.2 with
        | '(' :: rest =>
          match parseArgs fuel rest with
          | Except.ok q => Except.ok (Expr.call (String.mk p.1) q.1, q.2)
          | Except.error e => Except.error e
        | _ => Except.error "expected opening parenthesis after identifier"

/-- Parses the (possibly empty) argument list of a call, consuming the closing
parenthesis. -/
def parseArgs : Nat → List Char → Except String (List Expr × List Char)
  | 0, _ => Except.error "recursion limit exceeded"
  | fuel + 1, cs =>
    match skipWs cs with
    | ')' :: rest => Except.ok ([], rest)
    | cs2 =>
      match parseExpr fuel cs2 with
      | Except.ok p =>
        match parseMoreArgs fuel p.2 with
        | Except.ok q => Except.ok (p.1 :: q.1, q.2)
        | Except.error e => Except.error e
      | Except.error e => Except.error e

/-- Parses the continuation of an argument list after one argument: either a
closing parenthesis or a comma followed by further arguments. -/
def parseMoreArgs : Nat → List Char → Except String (List Expr × List Char)
  | 0, _ => Except.error "recursion limit exceeded"
  | fuel + 1, cs =>
    match skipWs cs with
    | ')' :: rest => Except.ok ([], rest)
    | ',' :: rest =>
      match parseExpr fuel rest with
      | Except.ok p =>
        match parseMoreArgs fuel p.2 with
        | Except.ok q => Except.ok (p.1 :: q.1, q.2)
        | Except.error e => Except.error e
      | Except.error e => Except.error e
    | _ => Except.error "expected comma or closing parenthesis"

end

/-- Modelled from the spec: script parsing (spec 4.2, `parse`): a script is
syntactically exactly one top-level expression (spec 3); malformed syntax is a
syntax error and the parser does not partially evaluate. -/
def parse (code : String) : Except String Expr :=
  match parseExpr (code.length + 1) code.data with
  | Except.ok p =>
    if (skipWs p.2).isEmpty then Except.ok p.1
    else Except.error "unexpected trailing characters"
  | Except.error e => Except.error e

/-- Does `needle` occur at some position of the haystack character list? -/
def strContainsAux (needle : List Char) : List Char → Bool
  | [] => needle.isEmpty
  | c :: cs => needle.isPrefixOf (c :: cs) || strContainsAux needle cs

/-- Modelled from the spec: the `contains` predicate semantics — true iff the
candidate's text contains the argument as a literal, case-sensitive substring
(spec 4.3, "ordinary case-sensitive substring match"). -/
def strContains (hay needle : String) : Bool :=
  strContainsAux needle.data hay.data

/-- Modelled from the spec: the candidate set a document offers to predicate
combinators — all lines of a text document, and the raw text of all block
nodes of a Markdown document, in document order (spec 4.3). -/
def Document.candidates : Document → List String
  | Document.text lines => lines
  | Document.markdown blocks => blocks.map Block.raw_text

/-- Modelled from the spec: the registry of node-kind selectors (spec 3 and
4.3, selectors such as `.h`, `.p`, `.code`); an unregistered selector name is
unresolved. -/
def selectorKind : String → Option Kind
  | "h" => some Kind.heading
  | "p" => some Kind.paragraph
  | "code" => some Kind.codeBlock
  | _ => none

/-- Modelled from the spec: resolution of a predicate expression to a boolean
function on candidate text; an unresolved function name is an
undefined-function error at call time, naming the identifier (spec 4.3). -/
def resolvePredicate : Expr → Except String (String → Bool)
  | Expr.call name args =>
    if name = "contains" then
      match args with
      | [Expr.strLit s] => Except.ok fun cand => strContains cand s
      | _ => Except.error "contains: expected exactly one string argument"
    else Except.error ("Undefined function: " ++ name)
  | _ => Except.error "expected a predicate function call"

/-- Modelled from the spec: the interpreter (spec 4.3, `evaluate`): a selector
yields the matching nodes' raw text in document order (a node-kind selector on
a text document matches no nodes, yielding an empty sequence, which is success
per spec 4.3, "zero matching candidates returns an empty sequence, not an
error"); `select(predicate)` keeps the candidates on which the predicate is
true; an unresolved function or selector name is an error naming the
identifier; evaluation never mutates the document. -/
def evaluate (ast : Expr) (doc : Document) : Except String (List String) :=
  match ast with
  | Expr.strLit s => Except.ok [s]
  | Expr.selector name =>
    match selectorKind name with
    | some k =>
      match doc with
      | Document.markdown blocks =>
        Except.ok ((blocks.filter fun b => b.kind == k).map Block.raw_text)
      | Document.text _ => Except.ok []
    | none => Except.error ("Undefined selector: ." ++ name)
  | Expr.call name args =>
    if name = "select" then
      match args with
      | [pred] =>
        match resolvePredicate pred with
        | Except.ok p => Except.ok (doc.candidates.filter p)
        | Except.error e => Except.error e
      | _ => Except.error "select: expected exactly one argument"
    else Except.error ("Undefined function: " ++ name)

/-- Modelled from the spec: the opaque, reusable engine context (spec 3,
"Engine Context"); it holds no per-call mutable state, so it is modelled as a
plain handle value. A null context is `Option.none` at the facade. -/
structure Engine where
  handle : Nat

/-- The C-compatible result of evaluation (mq.h, `mq_result_t`): `values` is
the result array (`none` models a null pointer) and `error_msg` the error
string (`none` models a null pointer). -/
structure MqResult where
  values : Option (List String)
  error_msg : Option String
deriving DecidableEq

/-- The `values_len` field of `mq_result_t`: the length of the result array,
zero when the values pointer is null. -/
def MqResult.values_len (r : MqResult) : Nat :=
  (r.values.getD []).length

/-- Modelled from the spec: the engine facade `mq_eval` (mq.h line 60, spec
4.5 and 6): a null context short-circuits with the message "Engine pointer is
null" before format recognition, document building, parsing, or evaluation;
failures follow the precedence context validity, then format recognition,
then document build (which never fails), then script parse, then script
evaluation; on success the interpreter's ordered result sequence is returned
with no error. -/
def mq_eval (engine : Option Engine) (code input fmt : String) : MqResult :=
  match engine with
  | none => ⟨none, some "Engine pointer is null"⟩
  | some _ =>
    match parseFormat fmt with
    | none => ⟨none, some ("Unsupported input format: " ++ fmt)⟩
    | some f =>
      match parse code with
      | Except.error e => ⟨none, some ("Syntax error: " ++ e)⟩
      | Except.ok ast =>
        match evaluate ast (buildDocument input f) with
        | Except.error e => ⟨none, some ("Error: " ++ e)⟩
        | Except.ok vs => ⟨some vs, none⟩

/-- The C-compatible conversion options (mq.h, `MqConversionOptions`). -/
structure MqConversionOptions where
  extract_scripts_as_code_blocks : Bool
  generate_front_matter : Bool
  use_title_as_h1 : Bool

/-- Removes HTML tag spans from a character list; the boolean tracks whether
the scan is inside a tag. -/
def stripTagsAux : List Char → Bool → List Char
  | [], _ => []
  | c :: cs, inTag =>
    if c = '<' then stripTagsAux cs true
    else if c = '>' then stripTagsAux cs false
    else if inTag then stripTagsAux cs inTag
    else c :: stripTagsAux cs inTag

/-- Modelled from the spec: the HTML to Markdown conversion (spec 4.4,
`convert`): parsing is permissive and the conversion never fails for any
input string; modelled as best-effort tag removal over the input. The
structural options govern features the boundary claims do not exercise. -/
def convertHtml (html : String) (_opts : MqConversionOptions) : String :=
  String.mk (stripTagsAux html.data false)

/-- Modelled from the spec: the converter entry point `mq_html_to_markdown`
(mq.h line 122, spec 4.4 and 6): a null HTML input pointer (`none`) yields a
null output and the error message "HTML input pointer is null"; otherwise the
conversion result is returned with no error. The pair is (output, error
message). -/
def mq_html_to_markdown (html : Option String) (opts : MqConversionOptions) :
    Option String × Option String :=
  match html with
  | none => (none, some "HTML input pointer is null")
  | some s => (some (convertHtml s opts), none)

/-- Modelled from the spec: the allocation state visible at the FFI boundary
(spec 5, "Resource ownership"): the identities of the live engine contexts
and of the live strings handed across the boundary. -/
structure Heap where
  contexts : List Nat
  strings : List Nat
deriving DecidableEq

/-- Modelled from the spec: `mq_destroy` (mq.h line 44, spec 6): destroying a
null context is a safe no-op; destroying a live context releases it;
destroying a non-live context is out of contract, modelled as a fault
(`none`). -/
def mq_destroy (ctx : Option Nat) (h : Heap) : Option Heap :=
  match ctx with
  | none => some h
  | some id =>
    if id ∈ h.contexts then some ⟨h.contexts.erase id, h.strings⟩ else none

/-- Modelled from the spec: `mq_free_string` (mq.h line 76, spec 6): freeing a
null string is a safe no-op; freeing a live string releases it exactly once;
freeing a non-live string (double free) is out of contract, modelled as a
fault (`none`). -/
def mq_free_string (s : Option Nat) (h : Heap) : Option Heap :=
  match s with
  | none => some h
  | some id =>
    if id ∈ h.strings then some ⟨h.contexts, h.strings.erase id⟩ else none

/-- Frees a list of strings in order through `mq_free_string`, faulting as
soon as one free faults. -/
def freeStrings : List Nat → Heap → Option Heap
  | [], h => some h
  | id :: ids, h => (mq_free_string (some id) h).bind (freeStrings ids)

/-- A returned `mq_result_t` viewed at the allocation level: the identities of
the value strings (`none` models a null values pointer) and of the error
string. -/
structure CResult where
  valueIds : Option (List Nat)
  errorId : Option Nat

/-- All string allocations owned by a result: every value string plus the
error string when present. -/
def CResult.ids (r : CResult) : List Nat :=
  r.valueIds.getD [] ++ r.errorId.toList

/-- A result as handed out by the engine: its strings are pairwise distinct
live allocations (spec 5: each call transfers ownership of freshly allocated
strings to the caller). -/
def CResult.wellFormed (r : CResult) (h : Heap) : Prop :=
  r.ids.Nodup ∧ ∀ i ∈ r.ids, i ∈ h.strings

/-- Modelled from the spec: `mq_free_result` (mq.h line 81, spec 6): frees
every string in the result list plus the error message, exactly once each, in
one call. -/
def mq_free_result (r : CResult) (h : Heap) : Option Heap :=
  freeStrings r.ids h

/-- A string with a non-empty left part stays non-empty under append. -/
theorem str_append_ne_empty (s t : String) (h : s.data ≠ []) : s ++ t ≠ "" := by
  intro heq
  apply h
  have h2 : (s ++ t).data = "".data := by rw [heq]
  rw [String.data_append] at h2
  exact (List.append_eq_nil.mp h2).1

/-- Freeing pairwise-distinct live strings in order never faults. -/
theorem freeStrings_isSome (ids : List Nat) (h : Heap)
    (hnd : ids.Nodup) (hmem : ∀ i ∈ ids, i ∈ h.strings) :
    (freeStrings ids h).isSome = true := by
  induction ids generalizing h with
  | nil => rfl
  | cons id ids ih =>
    have hid : id ∈ h.strings := hmem id (List.mem_cons_self id ids)
    have hstep : mq_free_string (some id) h
        = if id ∈ h.strings then some ⟨h.contexts, h.strings.erase id⟩ else none := rfl
    unfold freeStrings
    rw [hstep, if_pos hid, Option.some_bind]
    apply ih
    · exact (List.nodup_cons.mp hnd).2
    · intro i hi
      have hne : i ≠ id := by
        intro heq
        subst heq
        exact (List.nodup_cons.mp hnd).1 hi
      exact (List.mem_erase_of_ne hne).mpr (hmem i (List.mem_cons_of_mem id hi))

/-- Claim C1: for every text document (list of lines) and every string `s`,
evaluating the script `select(contains(s))` returns exactly the ordered
sub-sequence of the document's lines that contain `s` as a literal,
case-sensitive substring, with no error; in particular, the script
`select(contains("line"))` on input `"# line1\n## line2\n### line3"` with
format `text` returns exactly `["# line1", "## line2", "### line3"]` through
the full `mq_eval` pipeline. -/
theorem select_contains_filters_text_lines :
    (∀ (lines : List String) (s : String),
      evaluate (Expr.call "select" [Expr.call "contains" [Expr.strLit s]])
          (Document.text lines)
        = Except.ok (lines.filter fun l => strContains l s))
    ∧ mq_eval (some ⟨0⟩) "select(contains(\"line\"))"
        "# line1\n## line2\n### line3" "text"
        = ⟨some ["# line1", "## line2", "### line3"], none⟩ :=
  ⟨fun _ _ => rfl, rfl⟩

/-- Claim C2: for every Markdown document, the selector `.h` returns exactly
the ordered sequence of the heading nodes' raw text, in document order, with
no error, regardless of how many non-heading blocks are interleaved; for
input `"# Header\n\nSome text\n\n## Subheader"` the result through the full
`mq_eval` pipeline is the non-empty sequence of both heading lines. -/
theorem heading_selector_markdown :
    (∀ (blocks : List Block),
      evaluate (Expr.selector "h") (Document.markdown blocks)
        = Except.ok
            ((blocks.filter fun b => b.kind == Kind.heading).map Block.raw_text))
    ∧ mq_eval (some ⟨0⟩) ".h" "# Header\n\nSome text\n\n## Subheader" "markdown"
        = ⟨some ["# Header", "## Subheader"], none⟩
    ∧ (["# Header", "## Subheader"] : List String) ≠ [] :=
  ⟨fun _ => rfl, rfl, by decide⟩

/-- Claim C3: every `mq_eval` result has exactly one of two shapes: result
values with a null error message, or no values (null pointer, length zero)
with a non-empty error message; no mixed success-with-error result exists. -/
theorem mq_eval_result_shape (engine : Option Engine) (code input fmt : String) :
    (∃ vs, (mq_eval engine code input fmt).values = some vs
      ∧ (mq_eval engine code input fmt).error_msg = none)
    ∨ ((mq_eval engine code input fmt).values = none
      ∧ (mq_eval engine code input fmt).values_len = 0
      ∧ ∃ e, (mq_eval engine code input fmt).error_msg = some e ∧ e ≠ "") := by
  cases engine with
  | none =>
    exact Or.inr ⟨rfl, rfl, "Engine pointer is null", rfl, by decide⟩
  | some eng =>
    cases hf : parseFormat fmt with
    | none =>
      refine Or.inr ⟨?_, ?_, "Unsupported input format: " ++ fmt, ?_,
        str_append_ne_empty _ _ (by decide)⟩ <;>
        simp [mq_eval, MqResult.values_len, hf]
    | some f =>
      cases hp : parse code with
      | error e =>
        refine Or.inr ⟨?_, ?_, "Syntax error: " ++ e, ?_,
          str_append_ne_empty _ _ (by decide)⟩ <;>
          simp [mq_eval, MqResult.values_len, hf, hp]
      | ok ast =>
        cases he : evaluate ast (buildDocument input f) with
        | error e =>
          refine Or.inr ⟨?_, ?_, "Error: " ++ e, ?_,
            str_append_ne_empty _ _ (by decide)⟩ <;>
            simp [mq_eval, MqResult.values_len, hf, hp, he]
        | ok vs =>
          refine Or.inl ⟨vs, ?_, ?_⟩ <;> simp [mq_eval, hf, hp, he]

/-- Claim C4: format recognition accepts a format string if and only if it
matches "text" or "markdown" case-insensitively — "TEXT", "Text", "text" and
"MarkDown" are all accepted — and for an unrecognized format string such as
"json", `mq_eval` returns zero results and a non-empty error message,
regardless of the script and input. -/
theorem parseFormat_case_insensitive :
    (∀ fmt : String,
      (parseFormat fmt).isSome = true
        ↔ (strToLower fmt = "text" ∨ strToLower fmt = "markdown"))
    ∧ parseFormat "TEXT" = some InputFormat.text
    ∧ parseFormat "Text" = some InputFormat.text
    ∧ parseFormat "text" = some InputFormat.text
    ∧ parseFormat "MarkDown" = some InputFormat.markdown
    ∧ (∀ (e : Engine) (code input : String),
        mq_eval (some e) code input "json"
          = ⟨none, some "Unsupported input format: json"⟩
        ∧ "Unsupported input format: json" ≠ "") := by
  refine ⟨?_, rfl, rfl, rfl, rfl, fun e code input => ⟨rfl, by decide⟩⟩
  intro fmt
  unfold parseFormat
  by_cases h1 : strToLower fmt = "text"
  · simp [h1]
  · by_cases h2 : strToLower fmt = "markdown" <;> simp [h1, h2]

/-- Claim C5: calling `mq_eval` with a null engine context returns zero
results (null values pointer, length zero) and exactly the non-empty error
message "Engine pointer is null", for every script, input and format string
(recognized or not), so the null check short-circuits everything else. -/
theorem mq_eval_null_engine (code input fmt : String) :
    mq_eval none code input fmt = ⟨none, some "Engine pointer is null"⟩
    ∧ (mq_eval none code input fmt).values_len = 0
    ∧ "Engine pointer is null" ≠ "" :=
  ⟨rfl, rfl, by decide⟩

/-- Claim C6: the script `invalid_function()` is not rejected at parse time —
it parses successfully to a call node — and for every input and every
recognized format, evaluating it through `mq_eval` yields zero results and a
non-empty undefined-function error naming the identifier. -/
theorem invalid_function_parses_fails_at_eval :
    parse "invalid_function()" = Except.ok (Expr.call "invalid_function" [])
    ∧ (∀ (e : Engine) (input fmt : String), (parseFormat fmt).isSome = true →
        mq_eval (some e) "invalid_function()" input fmt
          = ⟨none, some "Error: Undefined function: invalid_function"⟩
        ∧ "Error: Undefined function: invalid_function" ≠ "") := by
  refine ⟨rfl, fun e input fmt h => ⟨?_, by decide⟩⟩
  cases hf : parseFormat fmt with
  | none => rw [hf] at h; simp at h
  | some f => cases f <;> simp [mq_eval, hf] <;> rfl

/-- Witness for claim C6 at the concrete input and format of the C test. -/
theorem invalid_function_witness :
    (parseFormat "text").isSome = true
    ∧ mq_eval (some ⟨0⟩) "invalid_function()" "test" "text"
        = ⟨none, some "Error: Undefined function: invalid_function"⟩ :=
  ⟨by decide,
   (invalid_function_parses_fails_at_eval.2 ⟨0⟩ "test" "text" (by decide)).1⟩

/-- Claim C7: for every set of conversion options, calling the converter with
a null HTML input pointer returns a null output and exactly the non-empty
error message "HTML input pointer is null". -/
theorem html_to_markdown_null_input (opts : MqConversionOptions) :
    mq_html_to_markdown none opts = (none, some "HTML input pointer is null")
    ∧ "HTML input pointer is null" ≠ "" :=
  ⟨rfl, by decide⟩

/-- Claim C8: evaluation is deterministic — two `mq_eval` calls with
identical (script, input, format) triples against a valid context produce
identical results; the model is a pure function of its arguments, with no
unordered collections in candidate-set handling. -/
theorem mq_eval_deterministic (e : Engine)
    (code1 input1 fmt1 code2 input2 fmt2 : String)
    (hc : code1 = code2) (hi : input1 = input2) (hf : fmt1 = fmt2) :
    mq_eval (some e) code1 input1 fmt1 = mq_eval (some e) code2 input2 fmt2 := by
  subst hc
  subst hi
  subst hf
  rfl

/-- Witness for claim C8 at a concrete triple. -/
theorem mq_eval_deterministic_witness :
    mq_eval (some ⟨0⟩) ".h" "# A" "markdown" = mq_eval (some ⟨0⟩) ".h" "# A" "markdown" :=
  mq_eval_deterministic ⟨0⟩ ".h" "# A" "markdown" ".h" "# A" "markdown" rfl rfl rfl

/-- Claim C9: every release entry point is null-safe: destroying a null
context is a no-op that never faults, freeing a null string is a safe no-op,
and freeing a returned result exactly once — its strings being pairwise
distinct live allocations, covering error results with a null values pointer
and zero-length results — never faults. -/
theorem release_entry_points_null_safe (h : Heap) :
    mq_destroy none h = some h
    ∧ mq_free_string none h = some h
    ∧ ∀ r : CResult, r.wellFormed h → (mq_free_result r h).isSome = true := by
  refine ⟨rfl, rfl, fun r hwf => ?_⟩
  exact freeStrings_isSome r.ids h hwf.1 hwf.2

/-- Witness for claim C9: a concrete heap with two live strings, destroying a
null context, and releasing an error result that owns one of them. -/
theorem release_entry_points_null_safe_witness :
    mq_destroy none (⟨[], [1, 2]⟩ : Heap) = some ⟨[], [1, 2]⟩
    ∧ (mq_free_result ⟨none, some 2⟩ ⟨[], [1, 2]⟩).isSome = true
    ∧ (mq_free_result ⟨some [], none⟩ ⟨[], [1, 2]⟩).isSome = true :=
  ⟨(release_entry_points_null_safe ⟨[], [1, 2]⟩).1,
   (release_entry_points_null_safe ⟨[], [1, 2]⟩).2.2 ⟨none, some 2⟩
     ⟨by decide, by decide⟩,
   (release_entry_points_null_safe ⟨[], [1, 2]⟩).2.2 ⟨some [], none⟩
     ⟨by decide, by decide⟩⟩

/-- Claim C10: applying the Markdown node-kind selector `.h` to a document
supplied in the text format is not an error: for a valid engine context and
any input, `mq_eval` with script `.h` and format "TEXT" returns a success
result with a null error message (the kind mismatch yields an empty match
set, which is success). -/
theorem heading_selector_on_text_is_success (e : Engine) (input : String) :
    mq_eval (some e) ".h" input "TEXT" = ⟨some [], none⟩
    ∧ (mq_eval (some e) ".h" input "TEXT").error_msg = none :=
  ⟨rfl, rfl⟩
